import Mathlib

/-!
Verification of the transaction priority details extractor of
runtime/src/transaction_priority_details.rs. The extractor delegates to the
compute-budget instruction decoder of the program-runtime crate, which is not
part of the sources under verification; that collaborator is modelled from the
specification (single pass, last-writer-wins per directive kind, failure on a
malformed payload, defaults when a directive is absent).
-/

namespace PriorityDetails

/-- Modelled from the spec: a program identifier. Only equality with the
designated compute-budget program identifier matters to the extractor. -/
abbrev Pubkey := Nat

/-- Modelled from the spec: the designated compute-budget program identifier. -/
def ComputeBudgetProgramId : Pubkey := 0

/-- Modelled from the spec: the recognized compute-budget directive kinds.
SetComputeUnitLimit carries a 32-bit unsigned value, SetComputeUnitPrice a
64-bit unsigned value, and RequestHeapFrame affects only memory sizing. -/
inductive ComputeBudgetInstruction where
  | RequestHeapFrame (bytes : Nat)
  | SetComputeUnitLimit (limit : Nat)
  | SetComputeUnitPrice (price : Nat)
deriving DecidableEq

/-- Modelled from the spec: a compiled instruction, reduced to what the
extractor inspects, namely the decode result of its payload. A value of none
models a malformed or unrecognized compute-budget payload; for instructions of
other programs the field is never inspected. -/
structure CompiledInstruction where
  decoded : Option ComputeBudgetInstruction
deriving DecidableEq

/-- Modelled from the spec: an active-feature-set descriptor, a list of
activated feature identifiers with their activation slots. The modelled
decoder does not branch on it. -/
def FeatureSet := List (Nat × Nat)

/-- Modelled from the spec: the default feature set with nothing activated. -/
def FeatureSet.default : FeatureSet := []

/-- Modelled from the spec: activation of a feature at a slot. -/
def FeatureSet.activate (fs : FeatureSet) (feature : Nat) (slot : Nat) : FeatureSet :=
  (feature, slot) :: fs

/-- Modelled from the spec: identifier of the feature the extractor activates
before invoking the decoder. -/
def add_set_tx_loaded_accounts_data_size_instruction_id : Nat := 1

/-- Modelled from the spec: the decoder error type. The spec names malformed
or unrecognized directive payloads as the cause of decoder failure. -/
inductive TransactionError where
  | InvalidInstructionData
deriving DecidableEq

/-- Modelled from the spec: the structured result of the compute-budget
decoder; the compute unit price is a 64-bit quantity, the compute unit limit a
32-bit one. -/
structure ComputeBudgetLimits where
  compute_unit_price : Nat
  compute_unit_limit : Nat
deriving DecidableEq

/-- Modelled from the spec: the default per-instruction compute allowance, a
fixed constant of the execution-budget subsystem. -/
def DEFAULT_INSTRUCTION_COMPUTE_UNIT_LIMIT : Nat := 200000

/-- Modelled from the spec: the default compute-unit limit, the per-instruction
allowance scaled by the count of non-budget instructions. It is stored in the
32-bit limit field of the decoder result, hence saturates at the 32-bit
bound. -/
def defaultComputeUnitLimit (numNonBudgetInstructions : Nat) : Nat :=
  min (DEFAULT_INSTRUCTION_COMPUTE_UNIT_LIMIT * numNonBudgetInstructions) (2 ^ 32 - 1)

/-- Modelled from the spec: the single pass of the decoder over the
instruction list, carrying last-writer-wins accumulators for the unit limit
and the unit price and a count of non-budget instructions. A compute-budget
instruction whose payload does not decode aborts the whole pass with an
error; a request-heap-frame directive is skipped. -/
def processLoop :
    List (Pubkey × CompiledInstruction) → Option Nat → Option Nat → Nat →
      Except TransactionError ComputeBudgetLimits
  | [], updatedLimit, updatedPrice, numNonBudget =>
      Except.ok
        { compute_unit_price := updatedPrice.getD 0
          compute_unit_limit := updatedLimit.getD (defaultComputeUnitLimit numNonBudget) }
  | (programId, ix) :: rest, updatedLimit, updatedPrice, numNonBudget =>
      if programId = ComputeBudgetProgramId then
        match ix.decoded with
        | none => Except.error TransactionError.InvalidInstructionData
        | some (ComputeBudgetInstruction.RequestHeapFrame _) =>
            processLoop rest updatedLimit updatedPrice numNonBudget
        | some (ComputeBudgetInstruction.SetComputeUnitLimit v) =>
            processLoop rest (some (v % 2 ^ 32)) updatedPrice numNonBudget
        | some (ComputeBudgetInstruction.SetComputeUnitPrice p) =>
            processLoop rest updatedLimit (some (p % 2 ^ 64)) numNonBudget
      else
        processLoop rest updatedLimit updatedPrice (numNonBudget + 1)

/-- Modelled from the spec: the compute-budget instruction decoder entry
point, returning the structured limits or an error. -/
def process_compute_budget_instructions
    (instructions : List (Pubkey × CompiledInstruction)) (_feature_set : FeatureSet) :
    Except TransactionError ComputeBudgetLimits :=
  processLoop instructions none none 0

/-- The value type returned by the extractor, from the source. -/
structure TransactionPriorityDetails where
  priority : Nat
  compute_unit_limit : Nat
deriving DecidableEq

/-- The ok conversion applied to the decoder result in the source, turning an
error into an absent value. -/
def exceptOk {ε α : Type} : Except ε α → Option α
  | Except.ok a => some a
  | Except.error _ => none

/-- process_compute_budget_instruction from the source: builds the feature
set, activates the loaded-accounts-data-size feature, runs the decoder, and on
success widens the 32-bit unit limit into the 64-bit field of the result. -/
def process_compute_budget_instruction
    (instructions : List (Pubkey × CompiledInstruction))
    (_round_compute_unit_price_enabled : Bool) : Option TransactionPriorityDetails :=
  let feature_set :=
    FeatureSet.activate FeatureSet.default add_set_tx_loaded_accounts_data_size_instruction_id 0
  match exceptOk (process_compute_budget_instructions instructions feature_set) with
  | none => none
  | some compute_budget_limits =>
      some { priority := compute_budget_limits.compute_unit_price
             compute_unit_limit := compute_budget_limits.compute_unit_limit }

/-- Modelled from the spec: a sanitized-but-still-versioned transaction,
reduced to its ordered program-id and instruction pairs. -/
structure SanitizedVersionedTransaction where
  program_instructions : List (Pubkey × CompiledInstruction)
deriving DecidableEq

/-- Modelled from the spec: a fully sanitized transaction, reduced to its
ordered program-id and instruction pairs. -/
structure SanitizedTransaction where
  program_instructions : List (Pubkey × CompiledInstruction)
deriving DecidableEq

/-- Modelled from the spec: the accessor of the versioned representation for
its instructions together with their resolved program ids. -/
def SanitizedVersionedTransaction.program_instructions_iter
    (tx : SanitizedVersionedTransaction) : List (Pubkey × CompiledInstruction) :=
  tx.program_instructions

/-- Modelled from the spec: the accessor of the fully sanitized representation
for its instructions together with their resolved program ids. -/
def SanitizedTransaction.program_instructions_iter
    (tx : SanitizedTransaction) : List (Pubkey × CompiledInstruction) :=
  tx.program_instructions

/-- The trait implementation for SanitizedVersionedTransaction, from the
source: forwards the instruction sequence to the extractor. -/
def SanitizedVersionedTransaction.get_transaction_priority_details
    (tx : SanitizedVersionedTransaction) (round_compute_unit_price_enabled : Bool) :
    Option TransactionPriorityDetails :=
  process_compute_budget_instruction tx.program_instructions_iter
    round_compute_unit_price_enabled

/-- The trait implementation for SanitizedTransaction, from the source:
forwards the instruction sequence to the extractor. -/
def SanitizedTransaction.get_transaction_priority_details
    (tx : SanitizedTransaction) (round_compute_unit_price_enabled : Bool) :
    Option TransactionPriorityDetails :=
  process_compute_budget_instruction tx.program_instructions_iter
    round_compute_unit_price_enabled

/-- The 32-bit values carried by the set-compute-unit-limit directives of the
sequence, in order. -/
def limitValues : List (Pubkey × CompiledInstruction) → List Nat
  | [] => []
  | (programId, ix) :: rest =>
      if programId = ComputeBudgetProgramId then
        match ix.decoded with
        | some (ComputeBudgetInstruction.SetComputeUnitLimit v) => v % 2 ^ 32 :: limitValues rest
        | _ => limitValues rest
      else limitValues rest

/-- The 64-bit values carried by the set-compute-unit-price directives of the
sequence, in order. -/
def priceValues : List (Pubkey × CompiledInstruction) → List Nat
  | [] => []
  | (programId, ix) :: rest =>
      if programId = ComputeBudgetProgramId then
        match ix.decoded with
        | some (ComputeBudgetInstruction.SetComputeUnitPrice p) => p % 2 ^ 64 :: priceValues rest
        | _ => priceValues rest
      else priceValues rest

/-- The number of instructions of the sequence that do not belong to the
compute-budget program. -/
def numNonBudget : List (Pubkey × CompiledInstruction) → Nat
  | [] => 0
  | (programId, _) :: rest =>
      if programId = ComputeBudgetProgramId then numNonBudget rest else numNonBudget rest + 1

/-- The last element of a value list, or a fallback accumulator when the list
is empty. -/
def lastOr (acc : Option Nat) : List Nat → Option Nat
  | [] => acc
  | v :: rest => lastOr (some v) rest

/-- Well-formedness of a sequence: every instruction of the compute-budget
program has a payload that decodes. -/
def WellFormedBudget (instructions : List (Pubkey × CompiledInstruction)) : Prop :=
  ∀ p ∈ instructions, p.1 = ComputeBudgetProgramId → p.2.decoded ≠ none

instance (instructions : List (Pubkey × CompiledInstruction)) :
    Decidable (WellFormedBudget instructions) := by
  unfold WellFormedBudget
  infer_instance

/-- On a well-formed sequence the pass succeeds, and the resulting price and
limit are the last recorded value of the respective kind, falling back to the
accumulators and then to the defaults. -/
theorem processLoop_ok (instructions : List (Pubkey × CompiledInstruction))
    (updatedLimit updatedPrice : Option Nat) (n : Nat)
    (hwf : WellFormedBudget instructions) :
    processLoop instructions updatedLimit updatedPrice n =
      Except.ok
        { compute_unit_price := (lastOr updatedPrice (priceValues instructions)).getD 0
          compute_unit_limit := (lastOr updatedLimit (limitValues instructions)).getD
              (defaultComputeUnitLimit (n + numNonBudget instructions)) } := by
  induction instructions generalizing updatedLimit updatedPrice n with
  | nil => simp [processLoop, priceValues, limitValues, numNonBudget, lastOr]
  | cons head rest ih =>
      obtain ⟨programId, ix⟩ := head
      have hrest : WellFormedBudget rest := fun p hp => hwf p (List.mem_cons_of_mem _ hp)
      by_cases hpid : programId = ComputeBudgetProgramId
      · have hdec : ix.decoded ≠ none :=
          hwf (programId, ix) (List.mem_cons_self _ _) hpid
        cases hix : ix.decoded with
        | none => exact absurd hix hdec
        | some d =>
            cases d with
            | RequestHeapFrame b =>
                simp [processLoop, hpid, hix, priceValues, limitValues, numNonBudget,
                  ih _ _ _ hrest]
            | SetComputeUnitLimit v =>
                simp [processLoop, hpid, hix, priceValues, limitValues, numNonBudget,
                  lastOr, ih _ _ _ hrest]
            | SetComputeUnitPrice p =>
                simp [processLoop, hpid, hix, priceValues, limitValues, numNonBudget,
                  lastOr, ih _ _ _ hrest]
      · have harith : n + 1 + numNonBudget rest = n + (numNonBudget rest + 1) := by omega
        simp [processLoop, hpid, priceValues, limitValues, numNonBudget,
          ih _ _ _ hrest, harith]

/-- A malformed compute-budget payload anywhere in the sequence makes the pass
fail with the invalid-instruction-data error. -/
theorem processLoop_error (instructions : List (Pubkey × CompiledInstruction))
    (updatedLimit updatedPrice : Option Nat) (n : Nat)
    (h : ∃ p ∈ instructions, p.1 = ComputeBudgetProgramId ∧ p.2.decoded = none) :
    processLoop instructions updatedLimit updatedPrice n =
      Except.error TransactionError.InvalidInstructionData := by
  induction instructions generalizing updatedLimit updatedPrice n with
  | nil => simp at h
  | cons head rest ih =>
      obtain ⟨programId, ix⟩ := head
      obtain ⟨p, hp, hppid, hpdec⟩ := h
      by_cases hpid : programId = ComputeBudgetProgramId
      · cases hix : ix.decoded with
        | none => simp [processLoop, hpid, hix]
        | some d =>
            have hmem : p ∈ rest := by
              rcases List.mem_cons.mp hp with heq | hmem
              · exfalso
                rw [heq] at hpdec
                simp only at hpdec
                rw [hix] at hpdec
                exact Option.noConfusion hpdec
              · exact hmem
            have hrest : ∃ q ∈ rest, q.1 = ComputeBudgetProgramId ∧ q.2.decoded = none :=
              ⟨p, hmem, hppid, hpdec⟩
            cases d with
            | RequestHeapFrame b => simp [processLoop, hpid, hix, ih _ _ _ hrest]
            | SetComputeUnitLimit v => simp [processLoop, hpid, hix, ih _ _ _ hrest]
            | SetComputeUnitPrice q => simp [processLoop, hpid, hix, ih _ _ _ hrest]
      · have hmem : p ∈ rest := by
          rcases List.mem_cons.mp hp with heq | hmem
          · exfalso
            rw [heq] at hppid
            exact hpid hppid
          · exact hmem
        have hrest : ∃ q ∈ rest, q.1 = ComputeBudgetProgramId ∧ q.2.decoded = none :=
          ⟨p, hmem, hppid, hpdec⟩
        simp [processLoop, hpid, ih _ _ _ hrest]

/-- The limit values of an appended sequence are the appended limit values. -/
theorem limitValues_append (l1 l2 : List (Pubkey × CompiledInstruction)) :
    limitValues (l1 ++ l2) = limitValues l1 ++ limitValues l2 := by
  induction l1 with
  | nil => simp [limitValues]
  | cons head rest ih =>
      obtain ⟨programId, ix⟩ := head
      by_cases hpid : programId = ComputeBudgetProgramId
      · cases hix : ix.decoded with
        | none => simp [limitValues, hpid, hix, ih]
        | some d => cases d <;> simp [limitValues, hpid, hix, ih]
      · simp [limitValues, hpid, ih]

/-- The price values of an appended sequence are the appended price values. -/
theorem priceValues_append (l1 l2 : List (Pubkey × CompiledInstruction)) :
    priceValues (l1 ++ l2) = priceValues l1 ++ priceValues l2 := by
  induction l1 with
  | nil => simp [priceValues]
  | cons head rest ih =>
      obtain ⟨programId, ix⟩ := head
      by_cases hpid : programId = ComputeBudgetProgramId
      · cases hix : ix.decoded with
        | none => simp [priceValues, hpid, hix, ih]
        | some d => cases d <;> simp [priceValues, hpid, hix, ih]
      · simp [priceValues, hpid, ih]

/-- The non-budget instruction count of an appended sequence is the sum of the
counts. -/
theorem numNonBudget_append (l1 l2 : List (Pubkey × CompiledInstruction)) :
    numNonBudget (l1 ++ l2) = numNonBudget l1 + numNonBudget l2 := by
  induction l1 with
  | nil => simp [numNonBudget]
  | cons head rest ih =>
      obtain ⟨programId, ix⟩ := head
      by_cases hpid : programId = ComputeBudgetProgramId
      · simp [numNonBudget, hpid, ih]
      · simp [numNonBudget, hpid, ih]
        omega

/-- A sequence without compute-budget instructions has no limit values. -/
theorem limitValues_nil_of_no_budget (instructions : List (Pubkey × CompiledInstruction))
    (h : ∀ p ∈ instructions, p.1 ≠ ComputeBudgetProgramId) :
    limitValues instructions = [] := by
  induction instructions with
  | nil => simp [limitValues]
  | cons head rest ih =>
      obtain ⟨programId, ix⟩ := head
      have hpid : programId ≠ ComputeBudgetProgramId :=
        h (programId, ix) (List.mem_cons_self _ _)
      simp [limitValues, hpid]
      exact ih fun p hp => h p (List.mem_cons_of_mem _ hp)

/-- A sequence without compute-budget instructions has no price values. -/
theorem priceValues_nil_of_no_budget (instructions : List (Pubkey × CompiledInstruction))
    (h : ∀ p ∈ instructions, p.1 ≠ ComputeBudgetProgramId) :
    priceValues instructions = [] := by
  induction instructions with
  | nil => simp [priceValues]
  | cons head rest ih =>
      obtain ⟨programId, ix⟩ := head
      have hpid : programId ≠ ComputeBudgetProgramId :=
        h (programId, ix) (List.mem_cons_self _ _)
      simp [priceValues, hpid]
      exact ih fun p hp => h p (List.mem_cons_of_mem _ hp)

/-- In a sequence without compute-budget instructions every instruction counts
as non-budget. -/
theorem numNonBudget_of_no_budget (instructions : List (Pubkey × CompiledInstruction))
    (h : ∀ p ∈ instructions, p.1 ≠ ComputeBudgetProgramId) :
    numNonBudget instructions = instructions.length := by
  induction instructions with
  | nil => simp [numNonBudget]
  | cons head rest ih =>
      obtain ⟨programId, ix⟩ := head
      have hpid : programId ≠ ComputeBudgetProgramId :=
        h (programId, ix) (List.mem_cons_self _ _)
      simp [numNonBudget, hpid]
      exact ih fun p hp => h p (List.mem_cons_of_mem _ hp)

/-- A sequence without compute-budget instructions is well formed. -/
theorem wf_of_no_budget (instructions : List (Pubkey × CompiledInstruction))
    (h : ∀ p ∈ instructions, p.1 ≠ ComputeBudgetProgramId) :
    WellFormedBudget instructions :=
  fun p hp hpid => absurd hpid (h p hp)

/-- Every recorded limit value is below the 32-bit bound. -/
theorem limitValues_lt (instructions : List (Pubkey × CompiledInstruction)) (v : Nat)
    (hv : v ∈ limitValues instructions) : v < 2 ^ 32 := by
  induction instructions with
  | nil => simp [limitValues] at hv
  | cons head rest ih =>
      obtain ⟨programId, ix⟩ := head
      by_cases hpid : programId = ComputeBudgetProgramId
      · cases hix : ix.decoded with
        | none =>
            rw [limitValues, hix] at hv
            simp only [hpid, if_true] at hv
            exact ih hv
        | some d =>
            cases d with
            | RequestHeapFrame b =>
                rw [limitValues, hix] at hv
                simp only [hpid, if_true] at hv
                exact ih hv
            | SetComputeUnitLimit w =>
                rw [limitValues, hix] at hv
                simp only [hpid, if_true, List.mem_cons] at hv
                rcases hv with hv | hv
                · rw [hv]
                  exact Nat.mod_lt _ (by norm_num)
                · exact ih hv
            | SetComputeUnitPrice q =>
                rw [limitValues, hix] at hv
                simp only [hpid, if_true] at hv
                exact ih hv
      · rw [limitValues] at hv
        simp only [hpid, if_false] at hv
        exact ih hv

/-- The last-or-fallback value of a list is an element of the list or the
fallback itself. -/
theorem lastOr_eq_some (acc : Option Nat) (l : List Nat) (v : Nat)
    (h : lastOr acc l = some v) : v ∈ l ∨ acc = some v := by
  induction l generalizing acc with
  | nil => exact Or.inr h
  | cons head rest ih =>
      rcases ih (some head) h with hv | hacc
      · exact Or.inl (List.mem_cons_of_mem _ hv)
      · exact Or.inl (by rw [Option.some.inj hacc]; exact List.mem_cons_self _ _)

/-- The scaled default limit is below the 32-bit bound. -/
theorem defaultComputeUnitLimit_lt (n : Nat) : defaultComputeUnitLimit n < 2 ^ 32 := by
  unfold defaultComputeUnitLimit
  omega

/-- On a well-formed sequence the extractor succeeds, and the result holds the
last price directive value (or 0) and the last limit directive value (or the
scaled default). -/
theorem process_ok_of_wf (instructions : List (Pubkey × CompiledInstruction)) (r : Bool)
    (hwf : WellFormedBudget instructions) :
    process_compute_budget_instruction instructions r =
      some
        { priority := (lastOr none (priceValues instructions)).getD 0
          compute_unit_limit := (lastOr none (limitValues instructions)).getD
              (defaultComputeUnitLimit (numNonBudget instructions)) } := by
  unfold process_compute_budget_instruction process_compute_budget_instructions
  rw [processLoop_ok instructions none none 0 hwf]
  simp [exceptOk]

/-- A malformed compute-budget payload anywhere in the sequence makes the
extractor return an absent result. -/
theorem process_none_of_malformed (instructions : List (Pubkey × CompiledInstruction))
    (r : Bool)
    (h : ∃ p ∈ instructions, p.1 = ComputeBudgetProgramId ∧ p.2.decoded = none) :
    process_compute_budget_instruction instructions r = none := by
  unfold process_compute_budget_instruction process_compute_budget_instructions
  rw [processLoop_error instructions none none 0 h]
  simp [exceptOk]

/-- On a sequence without compute-budget instructions the extractor returns a
zero priority and the default limit scaled by the sequence length. -/
theorem process_no_budget (instructions : List (Pubkey × CompiledInstruction)) (r : Bool)
    (h : ∀ p ∈ instructions, p.1 ≠ ComputeBudgetProgramId) :
    process_compute_budget_instruction instructions r =
      some { priority := 0
             compute_unit_limit := defaultComputeUnitLimit instructions.length } := by
  rw [process_ok_of_wf instructions r (wf_of_no_budget instructions h),
    limitValues_nil_of_no_budget instructions h, priceValues_nil_of_no_budget instructions h,
    numNonBudget_of_no_budget instructions h]
  rfl

/-- A compute-budget instruction whose payload decodes to the given directive. -/
def budgetIx (d : ComputeBudgetInstruction) : Pubkey × CompiledInstruction :=
  (ComputeBudgetProgramId, CompiledInstruction.mk (some d))

/-- An instruction of an unrelated program; its payload is never decoded. -/
def transferIx : Pubkey × CompiledInstruction := (7, CompiledInstruction.mk none)

/-- C1: on a sequence whose compute-budget payloads all decode and in which
some directive kind appears at least twice, extraction succeeds and, for each
kind, the value reflected in the result is the last occurrence of that kind,
falling back to the defaults (last-writer-wins). -/
theorem claim1_last_writer_wins (instructions : List (Pubkey × CompiledInstruction))
    (r : Bool) (hwf : WellFormedBudget instructions)
    (htwice : 2 ≤ (limitValues instructions).length ∨ 2 ≤ (priceValues instructions).length) :
    ∃ d, process_compute_budget_instruction instructions r = some d ∧
      d.compute_unit_limit = (lastOr none (limitValues instructions)).getD
          (defaultComputeUnitLimit (numNonBudget instructions)) ∧
      d.priority = (lastOr none (priceValues instructions)).getD 0 :=
  ⟨_, process_ok_of_wf instructions r hwf, rfl, rfl⟩

theorem claim1_witness :
    WellFormedBudget [budgetIx (ComputeBudgetInstruction.SetComputeUnitLimit 5), transferIx,
        budgetIx (ComputeBudgetInstruction.SetComputeUnitLimit 9)] ∧
      (2 ≤ (limitValues [budgetIx (ComputeBudgetInstruction.SetComputeUnitLimit 5), transferIx,
            budgetIx (ComputeBudgetInstruction.SetComputeUnitLimit 9)]).length ∨
        2 ≤ (priceValues [budgetIx (ComputeBudgetInstruction.SetComputeUnitLimit 5), transferIx,
            budgetIx (ComputeBudgetInstruction.SetComputeUnitLimit 9)]).length) ∧
      ∃ d, process_compute_budget_instruction
          [budgetIx (ComputeBudgetInstruction.SetComputeUnitLimit 5), transferIx,
            budgetIx (ComputeBudgetInstruction.SetComputeUnitLimit 9)] false = some d ∧
        d.compute_unit_limit =
          (lastOr none (limitValues [budgetIx (ComputeBudgetInstruction.SetComputeUnitLimit 5),
              transferIx, budgetIx (ComputeBudgetInstruction.SetComputeUnitLimit 9)])).getD
            (defaultComputeUnitLimit
              (numNonBudget [budgetIx (ComputeBudgetInstruction.SetComputeUnitLimit 5),
                transferIx, budgetIx (ComputeBudgetInstruction.SetComputeUnitLimit 9)])) ∧
        d.priority =
          (lastOr none (priceValues [budgetIx (ComputeBudgetInstruction.SetComputeUnitLimit 5),
              transferIx, budgetIx (ComputeBudgetInstruction.SetComputeUnitLimit 9)])).getD 0 :=
  ⟨by decide, by decide,
    claim1_last_writer_wins
      [budgetIx (ComputeBudgetInstruction.SetComputeUnitLimit 5), transferIx,
        budgetIx (ComputeBudgetInstruction.SetComputeUnitLimit 9)] false
      (by decide) (by decide)⟩

/-- C2: the extractor returns an absent result exactly when some instruction of
the compute-budget program has a payload that does not decode; no other
failure kind exists and no partial result is ever produced. -/
theorem claim2_none_iff_malformed (instructions : List (Pubkey × CompiledInstruction))
    (r : Bool) :
    process_compute_budget_instruction instructions r = none ↔
      ∃ p ∈ instructions, p.1 = ComputeBudgetProgramId ∧ p.2.decoded = none := by
  constructor
  · intro h
    by_contra hno
    have hwf : WellFormedBudget instructions := by
      intro p hp hpid hdec
      exact hno ⟨p, hp, hpid, hdec⟩
    rw [process_ok_of_wf instructions r hwf] at h
    exact Option.noConfusion h
  · exact process_none_of_malformed instructions r

/-- C3: on a sequence without compute-budget instructions the extractor
returns a zero priority and the default per-instruction allowance scaled by
the instruction count. -/
theorem claim3_no_directives_default (instructions : List (Pubkey × CompiledInstruction))
    (r : Bool) (h : ∀ p ∈ instructions, p.1 ≠ ComputeBudgetProgramId) :
    process_compute_budget_instruction instructions r =
      some { priority := 0
             compute_unit_limit := defaultComputeUnitLimit instructions.length } :=
  process_no_budget instructions r h

theorem claim3_witness :
    (∀ p ∈ [transferIx, ((9 : Pubkey), CompiledInstruction.mk none)],
        p.1 ≠ ComputeBudgetProgramId) ∧
      process_compute_budget_instruction
          [transferIx, ((9 : Pubkey), CompiledInstruction.mk none)] false =
        some { priority := 0
               compute_unit_limit :=
                 defaultComputeUnitLimit
                   ([transferIx, ((9 : Pubkey), CompiledInstruction.mk none)]).length } :=
  ⟨by decide,
    claim3_no_directives_default [transferIx, ((9 : Pubkey), CompiledInstruction.mk none)]
      false (by decide)⟩

/-- C4: a sequence whose only compute-budget directive is a request-heap-frame
does not fail: it yields the same result as the sequence with that directive
removed, namely a zero priority and the default limit scaled by the count of
the remaining instructions. -/
theorem claim4_heap_frame_ignored (pre post : List (Pubkey × CompiledInstruction))
    (bytes : Nat) (r : Bool)
    (hpre : ∀ p ∈ pre, p.1 ≠ ComputeBudgetProgramId)
    (hpost : ∀ p ∈ post, p.1 ≠ ComputeBudgetProgramId) :
    process_compute_budget_instruction
        (pre ++ budgetIx (ComputeBudgetInstruction.RequestHeapFrame bytes) :: post) r =
      process_compute_budget_instruction (pre ++ post) r ∧
    process_compute_budget_instruction
        (pre ++ budgetIx (ComputeBudgetInstruction.RequestHeapFrame bytes) :: post) r =
      some { priority := 0
             compute_unit_limit := defaultComputeUnitLimit (pre.length + post.length) } := by
  have hwf1 : WellFormedBudget
      (pre ++ budgetIx (ComputeBudgetInstruction.RequestHeapFrame bytes) :: post) := by
    intro p hp hpid
    rcases List.mem_append.mp hp with hp1 | hp2
    · exact absurd hpid (hpre p hp1)
    · rcases List.mem_cons.mp hp2 with heq | hp3
      · rw [heq]
        simp [budgetIx]
      · exact absurd hpid (hpost p hp3)
  have hl : limitValues
      (pre ++ budgetIx (ComputeBudgetInstruction.RequestHeapFrame bytes) :: post) = [] := by
    rw [limitValues_append, limitValues_nil_of_no_budget pre hpre]
    simp [limitValues, budgetIx, ComputeBudgetProgramId,
      limitValues_nil_of_no_budget post hpost]
  have hq : priceValues
      (pre ++ budgetIx (ComputeBudgetInstruction.RequestHeapFrame bytes) :: post) = [] := by
    rw [priceValues_append, priceValues_nil_of_no_budget pre hpre]
    simp [priceValues, budgetIx, ComputeBudgetProgramId,
      priceValues_nil_of_no_budget post hpost]
  have hn : numNonBudget
      (pre ++ budgetIx (ComputeBudgetInstruction.RequestHeapFrame bytes) :: post) =
      pre.length + post.length := by
    rw [numNonBudget_append, numNonBudget_of_no_budget pre hpre]
    simp [numNonBudget, budgetIx, ComputeBudgetProgramId,
      numNonBudget_of_no_budget post hpost]
  have ha : process_compute_budget_instruction
      (pre ++ budgetIx (ComputeBudgetInstruction.RequestHeapFrame bytes) :: post) r =
      some { priority := 0
             compute_unit_limit := defaultComputeUnitLimit (pre.length + post.length) } := by
    rw [process_ok_of_wf _ r hwf1, hl, hq, hn]
    rfl
  have h2 : ∀ p ∈ pre ++ post, p.1 ≠ ComputeBudgetProgramId := by
    intro p hp
    rcases List.mem_append.mp hp with hp1 | hp2
    · exact hpre p hp1
    · exact hpost p hp2
  have hb : process_compute_budget_instruction (pre ++ post) r =
      some { priority := 0
             compute_unit_limit := defaultComputeUnitLimit (pre.length + post.length) } := by
    rw [process_no_budget (pre ++ post) r h2]
    simp [List.length_append]
  exact ⟨ha.trans hb.symm, ha⟩

theorem claim4_witness :
    (∀ p ∈ [transferIx], p.1 ≠ ComputeBudgetProgramId) ∧
      (∀ p ∈ [((9 : Pubkey), CompiledInstruction.mk none)], p.1 ≠ ComputeBudgetProgramId) ∧
      (process_compute_budget_instruction
          ([transferIx] ++ budgetIx (ComputeBudgetInstruction.RequestHeapFrame 32768) ::
            [((9 : Pubkey), CompiledInstruction.mk none)]) false =
        process_compute_budget_instruction
          ([transferIx] ++ [((9 : Pubkey), CompiledInstruction.mk none)]) false ∧
      process_compute_budget_instruction
          ([transferIx] ++ budgetIx (ComputeBudgetInstruction.RequestHeapFrame 32768) ::
            [((9 : Pubkey), CompiledInstruction.mk none)]) false =
        some { priority := 0
               compute_unit_limit :=
                 defaultComputeUnitLimit
                   ([transferIx].length +
                     [((9 : Pubkey), CompiledInstruction.mk none)].length) }) :=
  ⟨by decide, by decide,
    claim4_heap_frame_ignored [transferIx] [((9 : Pubkey), CompiledInstruction.mk none)]
      32768 false (by decide) (by decide)⟩

/-- C5: on a well-formed sequence carrying exactly one set-compute-unit-limit
directive, of value V, and no set-compute-unit-price directive, the extractor
returns a limit of V and a priority of 0. -/
theorem claim5_single_limit (instructions : List (Pubkey × CompiledInstruction))
    (r : Bool) (V : Nat) (hwf : WellFormedBudget instructions)
    (hlim : limitValues instructions = [V])
    (hpr : priceValues instructions = []) :
    process_compute_budget_instruction instructions r =
      some { priority := 0, compute_unit_limit := V } := by
  rw [process_ok_of_wf instructions r hwf, hlim, hpr]
  rfl

theorem claim5_witness :
    WellFormedBudget [transferIx, budgetIx (ComputeBudgetInstruction.SetComputeUnitLimit 101)] ∧
      limitValues [transferIx, budgetIx (ComputeBudgetInstruction.SetComputeUnitLimit 101)] =
        [101] ∧
      priceValues [transferIx, budgetIx (ComputeBudgetInstruction.SetComputeUnitLimit 101)] =
        [] ∧
      process_compute_budget_instruction
          [transferIx, budgetIx (ComputeBudgetInstruction.SetComputeUnitLimit 101)] false =
        some { priority := 0, compute_unit_limit := 101 } :=
  ⟨by decide, by decide, by decide,
    claim5_single_limit [transferIx, budgetIx (ComputeBudgetInstruction.SetComputeUnitLimit 101)]
      false 101 (by decide) (by decide) (by decide)⟩

/-- C6: on a well-formed sequence carrying exactly one set-compute-unit-price
directive, of value P, and no set-compute-unit-limit directive, the extractor
returns a priority of P and the default limit scaled by the count of
non-budget instructions. -/
theorem claim6_single_price (instructions : List (Pubkey × CompiledInstruction))
    (r : Bool) (P : Nat) (hwf : WellFormedBudget instructions)
    (hlim : limitValues instructions = [])
    (hpr : priceValues instructions = [P]) :
    process_compute_budget_instruction instructions r =
      some { priority := P
             compute_unit_limit := defaultComputeUnitLimit (numNonBudget instructions) } := by
  rw [process_ok_of_wf instructions r hwf, hlim, hpr]
  rfl

theorem claim6_witness :
    WellFormedBudget [transferIx, budgetIx (ComputeBudgetInstruction.SetComputeUnitPrice 1000)] ∧
      limitValues [transferIx, budgetIx (ComputeBudgetInstruction.SetComputeUnitPrice 1000)] =
        [] ∧
      priceValues [transferIx, budgetIx (ComputeBudgetInstruction.SetComputeUnitPrice 1000)] =
        [1000] ∧
      process_compute_budget_instruction
          [transferIx, budgetIx (ComputeBudgetInstruction.SetComputeUnitPrice 1000)] false =
        some { priority := 1000
               compute_unit_limit :=
                 defaultComputeUnitLimit
                   (numNonBudget
                     [transferIx,
                       budgetIx (ComputeBudgetInstruction.SetComputeUnitPrice 1000)]) } :=
  ⟨by decide, by decide, by decide,
    claim6_single_price
      [transferIx, budgetIx (ComputeBudgetInstruction.SetComputeUnitPrice 1000)]
      false 1000 (by decide) (by decide) (by decide)⟩

/-- C7: the two transaction representations yield identical extraction results
whenever they wrap equal program-id and instruction sequences, including
identical absent results. -/
theorem claim7_representation_independent (svt : SanitizedVersionedTransaction)
    (st : SanitizedTransaction) (r : Bool)
    (h : svt.program_instructions = st.program_instructions) :
    svt.get_transaction_priority_details r = st.get_transaction_priority_details r := by
  unfold SanitizedVersionedTransaction.get_transaction_priority_details
    SanitizedTransaction.get_transaction_priority_details
    SanitizedVersionedTransaction.program_instructions_iter
    SanitizedTransaction.program_instructions_iter
  rw [h]

theorem claim7_witness :
    (SanitizedVersionedTransaction.mk
          [budgetIx (ComputeBudgetInstruction.SetComputeUnitPrice 7), transferIx]).program_instructions =
      (SanitizedTransaction.mk
          [budgetIx (ComputeBudgetInstruction.SetComputeUnitPrice 7), transferIx]).program_instructions ∧
      (SanitizedVersionedTransaction.mk
          [budgetIx (ComputeBudgetInstruction.SetComputeUnitPrice 7),
            transferIx]).get_transaction_priority_details true =
        (SanitizedTransaction.mk
          [budgetIx (ComputeBudgetInstruction.SetComputeUnitPrice 7),
            transferIx]).get_transaction_priority_details true :=
  ⟨rfl,
    claim7_representation_independent
      (SanitizedVersionedTransaction.mk
        [budgetIx (ComputeBudgetInstruction.SetComputeUnitPrice 7), transferIx])
      (SanitizedTransaction.mk
        [budgetIx (ComputeBudgetInstruction.SetComputeUnitPrice 7), transferIx])
      true rfl⟩

/-- C8: the round-compute-unit-price flag has no effect on the output, neither
on the extractor itself nor through either transaction representation. -/
theorem claim8_flag_no_op (instructions : List (Pubkey × CompiledInstruction))
    (svt : SanitizedVersionedTransaction) (st : SanitizedTransaction) :
    process_compute_budget_instruction instructions true =
        process_compute_budget_instruction instructions false ∧
      svt.get_transaction_priority_details true = svt.get_transaction_priority_details false ∧
      st.get_transaction_priority_details true = st.get_transaction_priority_details false :=
  ⟨rfl, rfl, rfl⟩

/-- C9: on well-formed sequences carrying exactly one set-compute-unit-limit
directive of value V and exactly one set-compute-unit-price directive of value
P, the extractor returns exactly a priority of P and a limit of V, so any two
arrangements of these directives among unrelated instructions produce the same
result. -/
theorem claim9_both_directives
    (instructions instructions2 : List (Pubkey × CompiledInstruction))
    (r : Bool) (V P : Nat)
    (hwf : WellFormedBudget instructions) (hwf2 : WellFormedBudget instructions2)
    (hlim : limitValues instructions = [V]) (hpr : priceValues instructions = [P])
    (hlim2 : limitValues instructions2 = [V]) (hpr2 : priceValues instructions2 = [P]) :
    process_compute_budget_instruction instructions r =
        some { priority := P, compute_unit_limit := V } ∧
      process_compute_budget_instruction instructions2 r =
        process_compute_budget_instruction instructions r := by
  have h1 := process_ok_of_wf instructions r hwf
  have h2 := process_ok_of_wf instructions2 r hwf2
  rw [hlim, hpr] at h1
  rw [hlim2, hpr2] at h2
  exact ⟨h1, h2.trans h1.symm⟩

theorem claim9_witness :
    WellFormedBudget
        [budgetIx (ComputeBudgetInstruction.SetComputeUnitLimit 300), transferIx,
          budgetIx (ComputeBudgetInstruction.SetComputeUnitPrice 42)] ∧
      WellFormedBudget
        [transferIx, budgetIx (ComputeBudgetInstruction.SetComputeUnitPrice 42),
          budgetIx (ComputeBudgetInstruction.SetComputeUnitLimit 300)] ∧
      limitValues
          [budgetIx (ComputeBudgetInstruction.SetComputeUnitLimit 300), transferIx,
            budgetIx (ComputeBudgetInstruction.SetComputeUnitPrice 42)] = [300] ∧
      priceValues
          [budgetIx (ComputeBudgetInstruction.SetComputeUnitLimit 300), transferIx,
            budgetIx (ComputeBudgetInstruction.SetComputeUnitPrice 42)] = [42] ∧
      limitValues
          [transferIx, budgetIx (ComputeBudgetInstruction.SetComputeUnitPrice 42),
            budgetIx (ComputeBudgetInstruction.SetComputeUnitLimit 300)] = [300] ∧
      priceValues
          [transferIx, budgetIx (ComputeBudgetInstruction.SetComputeUnitPrice 42),
            budgetIx (ComputeBudgetInstruction.SetComputeUnitLimit 300)] = [42] ∧
      (process_compute_budget_instruction
          [budgetIx (ComputeBudgetInstruction.SetComputeUnitLimit 300), transferIx,
            budgetIx (ComputeBudgetInstruction.SetComputeUnitPrice 42)] false =
        some { priority := 42, compute_unit_limit := 300 } ∧
      process_compute_budget_instruction
          [transferIx, budgetIx (ComputeBudgetInstruction.SetComputeUnitPrice 42),
            budgetIx (ComputeBudgetInstruction.SetComputeUnitLimit 300)] false =
        process_compute_budget_instruction
          [budgetIx (ComputeBudgetInstruction.SetComputeUnitLimit 300), transferIx,
            budgetIx (ComputeBudgetInstruction.SetComputeUnitPrice 42)] false) :=
  ⟨by decide, by decide, by decide, by decide, by decide, by decide,
    claim9_both_directives
      [budgetIx (ComputeBudgetInstruction.SetComputeUnitLimit 300), transferIx,
        budgetIx (ComputeBudgetInstruction.SetComputeUnitPrice 42)]
      [transferIx, budgetIx (ComputeBudgetInstruction.SetComputeUnitPrice 42),
        budgetIx (ComputeBudgetInstruction.SetComputeUnitLimit 300)]
      false 300 42 (by decide) (by decide) (by decide) (by decide) (by decide) (by decide)⟩

/-- C10: whenever the extractor returns a result, its compute-unit-limit field
is strictly below the 32-bit bound, since it is widened from the 32-bit limit
of the decoder result. -/
theorem claim10_limit_below_32_bits (instructions : List (Pubkey × CompiledInstruction))
    (r : Bool) (d : TransactionPriorityDetails)
    (h : process_compute_budget_instruction instructions r = some d) :
    d.compute_unit_limit < 2 ^ 32 := by
  by_cases hwf : WellFormedBudget instructions
  · rw [process_ok_of_wf instructions r hwf] at h
    have hd := Option.some.inj h
    rw [← hd]
    show (lastOr none (limitValues instructions)).getD
        (defaultComputeUnitLimit (numNonBudget instructions)) < 2 ^ 32
    cases hl : lastOr none (limitValues instructions) with
    | none =>
        exact defaultComputeUnitLimit_lt _
    | some v =>
        rcases lastOr_eq_some none (limitValues instructions) v hl with hv | habs
        · exact limitValues_lt instructions v hv
        · exact Option.noConfusion habs
  · have hmal : ∃ p ∈ instructions, p.1 = ComputeBudgetProgramId ∧ p.2.decoded = none := by
      unfold WellFormedBudget at hwf
      push_neg at hwf
      exact hwf
    rw [process_none_of_malformed instructions r hmal] at h
    exact Option.noConfusion h

theorem claim10_witness :
    process_compute_budget_instruction [transferIx] false =
        some { priority := 0, compute_unit_limit := 200000 } ∧
      (200000 : Nat) < 2 ^ 32 :=
  ⟨by decide,
    claim10_limit_below_32_bits [transferIx] false
      (TransactionPriorityDetails.mk 0 200000) (by decide)⟩

end PriorityDetails
